import Mathlib

/-!
Gear: command dispatch (`Run`, `RunCommand`).

A shallow embedding of `src/gear.go`.  The two functions of the package are
translated statement by statement into a small effect monad `Exec` that
records the observable events of a run (configuration, GUI launch, method
lookup, method invocation, printing) and ends in one of three outcomes: a
normal return, `os.Exit`, or a panic.

The collaborators that are not defined in `gear.go` (`Config`, `Usage`,
`strcase.ToCamel`, the `%q` verb of `fmt`) are parameters of the embedding,
collected in `Env`; they and `GUI` are taken to return to their caller.  A
method of the app, which is arbitrary application code, may return, exit the
process or panic.
-/

namespace Gear

/-! ## Go values -/

/-- A Go type, as far as `RunCommand` looks at it: the name that `%T` prints,
and whether its method set contains `Error() string`. -/
structure GoType where
  name : String
  implementsError : Bool
deriving DecidableEq, Repr

/-- A Go value together with its dynamic type, which is what a non-nil
interface value holds.  `plain typ fmtV` is a value made by application or
collaborator code, `fmtV` being its rendering under `%v` (for a type that
implements `error` this is the result of `Error()`).
`wrapError msg err` is the `*fmt.wrapError` that `fmt.Errorf` builds for a
format with one `%w` operand.  `nilPointer typ fmtV` is the nil pointer of
the pointer type `typ`: nil at its own type, yet boxed into an interface it
makes a non-nil interface value; `%v` prints it as `<nil>` unless the type
has a formatting method that accepts a nil receiver. -/
inductive GoValue where
  | plain (typ : GoType) (fmtV : String)
  | wrapError (msg : String) (err : GoValue)
  | nilPointer (typ : GoType) (fmtV : String)
deriving DecidableEq, Repr

/-- An interface value (`any`, `error`): `none` is the nil interface. -/
abbrev Iface := Option GoValue

/-- The dynamic type of a value. -/
def GoValue.typ : GoValue → GoType
  | .plain typ _ => typ
  | .wrapError _ _ => ⟨"*fmt.wrapError", true⟩
  | .nilPointer typ _ => typ

/-- The rendering of a value under `%v`. -/
def GoValue.fmtV : GoValue → String
  | .plain _ s => s
  | .wrapError msg _ => msg
  | .nilPointer _ s => s

/-- The method `Error()` of an error value. -/
def GoValue.Error (v : GoValue) : String := v.fmtV

/-- The method `Unwrap()` of a `*fmt.wrapError`. -/
def GoValue.Unwrap : GoValue → Iface
  | .plain _ _ => none
  | .wrapError _ err => some err
  | .nilPointer _ _ => none

/-- The comparison `v == nil` of a value at its own, concrete type. -/
def GoValue.isNil : GoValue → Bool
  | .plain _ _ => false
  | .wrapError _ _ => false
  | .nilPointer _ _ => true

/-- The value `errors.New(s)`, which `fmt.Errorf` returns for a format
without `%w`. -/
def errorsNew (s : String) : GoValue :=
  .plain ⟨"*errors.errorString", true⟩ s

/-- The verb `%v` applied to an interface value. -/
def Iface.fmtV : Iface → String
  | none => "<nil>"
  | some v => v.fmtV

/-- The verb `%T` applied to an interface value. -/
def Iface.fmtT : Iface → String
  | none => "<nil>"
  | some v => v.typ.name

/-- The type assertion `i.(error)` in its two-result form. -/
def assertError (i : Iface) : Iface × Bool :=
  match i with
  | some v => if v.typ.implementsError then (some v, true) else (none, false)
  | none => (none, false)

/-! ## Outcomes and methods -/

/-- How a computation ends. -/
inductive Outcome (α : Type) where
  | ret (a : α)
  | exit (code : Int)
  | panic (msg : String)
deriving DecidableEq, Repr

/-- Maps the returned value of an outcome. -/
def Outcome.map {α β : Type} (f : α → β) : Outcome α → Outcome β
  | .ret a => .ret (f a)
  | .exit c => .exit c
  | .panic p => .panic p

/-- One result of a method as the callee leaves it.  A result whose declared
type is an interface type holds an interface value, possibly nil; a result
of a concrete declared type holds a value of exactly that type. -/
inductive Result where
  | iface (decl : GoType) (content : Iface)
  | concrete (v : GoValue)
deriving DecidableEq, Repr

/-- The declared type of a result. -/
def Result.declType : Result → GoType
  | .iface decl _ => decl
  | .concrete v => v.typ

/-- The comparison `v == nil` of a result at its declared type: a result of
an interface type is nil when it is the nil interface, a result of a concrete
type when it is the nil pointer of that type. -/
def Result.isNil : Result → Bool
  | .iface _ content => content.isNone
  | .concrete v => v.isNil

/-- A method of the app: the number of declared parameters, whether the last
one is variadic, and what a call does. -/
structure Method where
  numIn : Nat
  isVariadic : Bool
  body : Outcome (List Result)
deriving DecidableEq, Repr

/-- The app as reflection sees it: the exported method set of its dynamic
type, looked up by name. -/
structure App where
  methods : String → Option Method

/-! ## Effects -/

/-- The observable events of a run: the calls `Config(app, defaultFile...)`
and `GUI(app)`, a method lookup by name, the invocation of a method, and a
line printed on standard output. -/
inductive Event where
  | config (defaultFile : List String)
  | gui (app : Option App)
  | methodByName (name : String)
  | call (name : String)
  | println (s : String)

/-- A computation: the events it produced, in order, and how it ended. -/
structure Exec (α : Type) where
  trace : List Event
  outcome : Outcome α

/-- Sequencing: the second computation runs only when the first returns. -/
def Exec.bind {α β : Type} (x : Exec α) (f : α → Exec β) : Exec β :=
  match x.outcome with
  | .ret a => ⟨x.trace ++ (f a).trace, (f a).outcome⟩
  | .exit c => ⟨x.trace, .exit c⟩
  | .panic p => ⟨x.trace, .panic p⟩

instance : Monad Exec where
  pure a := ⟨[], .ret a⟩
  bind := Exec.bind

/-- Records one event. -/
def emit (e : Event) : Exec Unit := ⟨[e], .ret ()⟩

/-- The call `os.Exit(code)`. -/
def osExit {α : Type} (code : Int) : Exec α := ⟨[], .exit code⟩

/-- A run-time panic. -/
def goPanic {α : Type} (msg : String) : Exec α := ⟨[], .panic msg⟩

/-- The call `fmt.Println(s)`. -/
def Println (s : String) : Exec Unit := emit (.println s)

/-! ## Reflection -/

/-- A `reflect.Value` holding a result of a call. -/
structure ReflectValue where
  valid : Bool
  flagRO : Bool
  iface : Iface
deriving DecidableEq, Repr

/-- The method `IsValid` of `reflect.Value`. -/
def ReflectValue.IsValid (r : ReflectValue) : Bool := r.valid

/-- The method `CanInterface` of `reflect.Value` (on a valid value). -/
def ReflectValue.CanInterface (r : ReflectValue) : Bool := !r.flagRO

/-- The method `Interface` of `reflect.Value`: for a value of interface kind
the element inside, otherwise the value boxed with its type. -/
def ReflectValue.Interface (r : ReflectValue) : Iface := r.iface

/-- The verb `%v` applied to a `reflect.Value`. -/
def ReflectValue.fmtV (r : ReflectValue) : String :=
  if r.valid then r.iface.fmtV else "<invalid reflect.Value>"

/-- The `reflect.Value` that `Call` builds for a result: valid, and not
read-only. -/
def Result.toValue : Result → ReflectValue
  | .iface _ content => ⟨true, false, content⟩
  | .concrete v => ⟨true, false, some v⟩

/-- The call `reflect.ValueOf(app).MethodByName(name)`: panics on a nil
`app`, and otherwise yields the method of that name, or the zero Value
(`none`). -/
def MethodByName (app : Option App) (name : String) : Exec (Option (String × Method)) :=
  match app with
  | none => goPanic "reflect: call of reflect.Value.MethodByName on zero Value"
  | some a => ⟨[.methodByName name], .ret ((a.methods name).map (fun m => (name, m)))⟩

/-- The call `meth.Call(nil)`: with no arguments passed, reflection panics
unless the method has no parameter besides a variadic one; otherwise the
method runs. -/
def Call (meth : Option (String × Method)) : Exec (List ReflectValue) :=
  match meth with
  | none => goPanic "reflect: call of reflect.Value.Call on zero Value"
  | some (name, m) =>
    let n := if m.isVariadic then m.numIn - 1 else m.numIn
    if 0 < n then goPanic "reflect: Call with too few input arguments"
    else ⟨[.call name], m.body.map (List.map Result.toValue)⟩

/-! ## Collaborators -/

/-- What `Config` leaves behind: the app with its configuration fields set,
the leftover arguments, and the error. -/
structure ConfigResult where
  app : Option App
  leftovers : List String
  err : Iface

/-- The collaborators of `gear.go` that are defined elsewhere:
`strcase.ToCamel`, the verb `%q` of `fmt` on a string, `Usage`, and `Config`
(which reads `os.Args`). -/
structure Env where
  ToCamel : String → String
  fmtQ : String → String
  Usage : Option App → String
  Config : Option App → List String → ConfigResult

/-- Modelled from the spec: `Config` is defined in a file of the package that
is not part of the sources.  The spec gives its contract,
`Configure(handle, paths) -> (leftovers, err)`; the call is recorded as an
event and yields what the parameter `Env.Config` computes. -/
def Config (env : Env) (app : Option App) (defaultFile : List String) : Exec ConfigResult :=
  ⟨[.config defaultFile], .ret (env.Config app defaultFile)⟩

/-- Modelled from the spec: `GUI` is defined in a file of the package that is
not part of the sources.  The spec describes it as an entry point that is
invoked fire-and-forget, with no return value to check; the call is recorded
as an event. -/
def GUI (app : Option App) : Exec Unit := emit (.gui app)

/-! ## The package -/

/-- The function `RunCommand` of `gear.go` (lines 57 to 87).  The test
`len(res) != 1` followed by `r := res[0]` is written as a match on `res`. -/
def RunCommand (env : Env) (app : Option App) (cmd : String) : Exec Iface := do
  let name := env.ToCamel cmd ++ "Cmd"
  let meth ← MethodByName app name
  if !meth.isSome then
    if cmd = "help" then
      Println (env.Usage app)
      osExit 0
    return some (errorsNew ("command " ++ env.fmtQ cmd ++ " not found"))
  let res ← Call meth
  match res with
  | [r] =>
    if !r.IsValid || !r.CanInterface then
      return some (errorsNew ("programmer error: expected valid return value (of type error) from "
        ++ env.fmtQ name ++ " but got " ++ r.fmtV ++ " instead"))
    let i := r.Interface
    let (err, ok) := assertError i
    if !ok && i != none then
      return some (errorsNew ("programmer error: expected return value of type error from "
        ++ env.fmtQ name ++ " but got value '" ++ i.fmtV ++ "' of type " ++ i.fmtT ++ " instead"))
    if err != none then
      return err
    return none
  | _ =>
    return some (errorsNew ("programmer error: expected 1 return value (of type error) from "
      ++ env.fmtQ name ++ " but got " ++ Nat.repr res.length ++ " instead"))

/-- The function `Run` of `gear.go` (lines 34 to 49).  The test
`len(leftovers) == 0` followed by `cmd := leftovers[0]` is written as a match
on `leftovers`; the app handed to `GUI` and `RunCommand` is the one `Config`
has configured. -/
def Run (env : Env) (app : Option App) (defaultFile : List String) : Exec Iface := do
  let c ← Config env app defaultFile
  if let some err := c.err then
    return some (.wrapError ("error configuring app: " ++ err.Error) err)
  match c.leftovers with
  | [] =>
    GUI c.app
    return none
  | cmd :: _ =>
    let err ← RunCommand env c.app cmd
    if let some e := err then
      return some (.wrapError ("error running command " ++ env.fmtQ cmd ++ ": " ++ e.Error) e)
    return none

/-! ## The naming convention -/

/-- Modelled from the spec: `strcase.ToCamel`, of the library
`github.com/iancoleman/strcase`, is not part of the sources.  The spec
describes it as word-boundary camel-casing: the first letter and each letter
that follows a `-` or `_` separator is upper-cased, and the separators are
dropped.  `camelChars capNext` walks the characters, `capNext` telling
whether the next letter starts a word. -/
def camelChars (capNext : Bool) : List Char → List Char
  | [] => []
  | c :: cs =>
    if c = '-' ∨ c = '_' then camelChars true cs
    else (if capNext then c.toUpper else c) :: camelChars false cs

/-- Modelled from the spec: `CamelCase(token)`, the word-boundary
camel-casing of a token (see `camelChars`). -/
def CamelCase (s : String) : String := ⟨camelChars true s.data⟩

/-- The name of the method that `RunCommand` looks up for a token: the first
statement of `RunCommand`. -/
def DerivedName (env : Env) (cmd : String) : String := env.ToCamel cmd ++ "Cmd"

/-! ## A sample app -/

/-- The declared result type `error`. -/
def errorType : GoType := ⟨"error", true⟩

/-- The declared result type `any`. -/
def anyType : GoType := ⟨"interface {}", false⟩

/-- A sample error value returned by a command. -/
def buildFailed : GoValue := .plain ⟨"*errors.errorString", true⟩ "build failed"

/-- A sample app with commands of several shapes:
`BuildCmd() error` returning nil, `SyncCmd() error` returning an error,
`HelpCmd() error` returning nil, `NoneCmd()` without results,
`PairCmd() (int, error)`, `CountCmd() int`, `AnyCmd() any` returning nil,
and `ArgCmd(n int) error`. -/
def sampleApp : App where
  methods := fun name =>
    if name = "BuildCmd" then some ⟨0, false, .ret [.iface errorType none]⟩
    else if name = "SyncCmd" then some ⟨0, false, .ret [.iface errorType (some buildFailed)]⟩
    else if name = "HelpCmd" then some ⟨0, false, .ret [.iface errorType none]⟩
    else if name = "NoneCmd" then some ⟨0, false, .ret []⟩
    else if name = "PairCmd" then
      some ⟨0, false, .ret [.concrete (.plain ⟨"int", false⟩ "7"), .iface errorType (some buildFailed)]⟩
    else if name = "CountCmd" then some ⟨0, false, .ret [.concrete (.plain ⟨"int", false⟩ "7")]⟩
    else if name = "AnyCmd" then some ⟨0, false, .ret [.iface anyType none]⟩
    else if name = "ArgCmd" then some ⟨1, false, .ret [.iface errorType none]⟩
    else none

/-- A sample app whose commands return pointers: `PtrCmd() *int` and
`ErrPtrCmd() *MyErr`, where `*MyErr` implements `error`, each returning the
nil pointer. -/
def pointerApp : App where
  methods := fun name =>
    if name = "PtrCmd" then
      some ⟨0, false, .ret [.concrete (.nilPointer ⟨"*int", false⟩ "<nil>")]⟩
    else if name = "ErrPtrCmd" then
      some ⟨0, false, .ret [.concrete (.nilPointer ⟨"*main.MyErr", true⟩ "<nil>")]⟩
    else none

/-- A sample app whose only command is `HelpCmd(n int) error`. -/
def argHelpApp : App where
  methods := fun name =>
    if name = "HelpCmd" then some ⟨1, false, .ret [.iface errorType none]⟩ else none

/-- A sample app whose only command is `HelpCmd(topics ...string) error`,
returning nil. -/
def variadicHelpApp : App where
  methods := fun name =>
    if name = "HelpCmd" then some ⟨1, true, .ret [.iface errorType none]⟩ else none

/-- A sample app without any command. -/
def emptyApp : App where
  methods := fun _ => none

/-- A sample environment: the camel-casing of the spec, `%q` as plain double
quotes (which is what it prints for a token of letters, digits and dashes),
and a configuration step that hands back the default paths as leftovers. -/
def sampleEnv : Env where
  ToCamel := CamelCase
  fmtQ := fun s => "\"" ++ s ++ "\""
  Usage := fun _ => "usage: app <command>"
  Config := fun app args => ⟨app, args, none⟩

/-- A sample environment whose configuration step fails. -/
def failingEnv : Env where
  ToCamel := CamelCase
  fmtQ := fun s => "\"" ++ s ++ "\""
  Usage := fun _ => "usage: app <command>"
  Config := fun app _ => ⟨app, [], some (errorsNew "no such file")⟩

/-! ## How `RunCommand` ends, case by case -/

/-- When the derived name resolves to no method, `RunCommand` prints the usage
and exits for the token `help`, and returns the not-found error otherwise. -/
theorem RunCommand_notFound (env : Env) (app : App) (cmd : String)
    (h : app.methods (env.ToCamel cmd ++ "Cmd") = none) :
    RunCommand env (some app) cmd =
      if cmd = "help" then
        ⟨[.methodByName (env.ToCamel cmd ++ "Cmd"), .println (env.Usage (some app))], .exit 0⟩
      else
        ⟨[.methodByName (env.ToCamel cmd ++ "Cmd")],
          .ret (some (errorsNew ("command " ++ env.fmtQ cmd ++ " not found")))⟩ := by
  by_cases hc : cmd = "help"
  · subst hc
    simp [RunCommand, MethodByName, bind, Exec.bind, h, Println, emit, osExit, pure]
  · simp [RunCommand, MethodByName, bind, Exec.bind, h, hc, Println, emit, osExit, pure]

/-- When the derived name resolves to a method, `RunCommand` panics inside
reflection if the method needs an argument; otherwise it invokes the method
and, when the method returns, classifies what it returned. -/
theorem RunCommand_found (env : Env) (app : App) (cmd : String) (m : Method)
    (h : app.methods (env.ToCamel cmd ++ "Cmd") = some m) :
    RunCommand env (some app) cmd =
      if 0 < (if m.isVariadic then m.numIn - 1 else m.numIn) then
        ⟨[.methodByName (env.ToCamel cmd ++ "Cmd")], .panic "reflect: Call with too few input arguments"⟩
      else
        ⟨[.methodByName (env.ToCamel cmd ++ "Cmd"), .call (env.ToCamel cmd ++ "Cmd")],
          match m.body with
          | .ret [r] =>
            match (Result.toValue r).Interface with
            | none => .ret none
            | some v =>
              if v.typ.implementsError then .ret (some v)
              else .ret (some (errorsNew ("programmer error: expected return value of type error from "
                ++ env.fmtQ (env.ToCamel cmd ++ "Cmd") ++ " but got value '" ++ v.fmtV ++ "' of type "
                ++ v.typ.name ++ " instead")))
          | .ret rs => .ret (some (errorsNew ("programmer error: expected 1 return value (of type error) from "
              ++ env.fmtQ (env.ToCamel cmd ++ "Cmd") ++ " but got " ++ Nat.repr rs.length ++ " instead")))
          | .exit c => .exit c
          | .panic p => .panic p⟩ := by
  by_cases hn : 0 < (if m.isVariadic then m.numIn - 1 else m.numIn)
  · simp [RunCommand, MethodByName, Call, bind, Exec.bind, h, hn, goPanic, pure]
  · rcases hb : m.body with rs | c | p
    · rcases rs with _ | ⟨r, _ | ⟨r2, rs⟩⟩
      · simp [RunCommand, MethodByName, Call, bind, Exec.bind, h, hn, hb, Outcome.map, pure]
      · cases r with
        | iface decl content =>
          cases content with
          | none =>
            simp [RunCommand, MethodByName, Call, bind, Exec.bind, h, hn, hb, Outcome.map, pure,
              Result.toValue, ReflectValue.IsValid, ReflectValue.CanInterface,
              ReflectValue.Interface, assertError]
          | some v =>
            by_cases hv : v.typ.implementsError = true <;>
            simp [RunCommand, MethodByName, Call, bind, Exec.bind, h, hn, hb, Outcome.map, pure,
              Result.toValue, ReflectValue.IsValid, ReflectValue.CanInterface,
              ReflectValue.Interface, assertError, hv, Iface.fmtV, Iface.fmtT]
        | concrete v =>
          by_cases hv : v.typ.implementsError = true <;>
          simp [RunCommand, MethodByName, Call, bind, Exec.bind, h, hn, hb, Outcome.map, pure,
            Result.toValue, ReflectValue.IsValid, ReflectValue.CanInterface,
            ReflectValue.Interface, assertError, hv, Iface.fmtV, Iface.fmtT]
      · simp [RunCommand, MethodByName, Call, bind, Exec.bind, h, hn, hb, Outcome.map, pure]
    · simp [RunCommand, MethodByName, Call, bind, Exec.bind, h, hn, hb, Outcome.map, pure]
    · simp [RunCommand, MethodByName, Call, bind, Exec.bind, h, hn, hb, Outcome.map, pure]

/-- No run of `RunCommand` launches the GUI. -/
theorem RunCommand_trace_no_gui (env : Env) (app : Option App) (cmd : String) (a : Option App) :
    Event.gui a ∉ (RunCommand env app cmd).trace := by
  cases app with
  | none => simp [RunCommand, MethodByName, bind, Exec.bind, goPanic]
  | some ap =>
    cases hm : ap.methods (env.ToCamel cmd ++ "Cmd") with
    | none =>
      rw [RunCommand_notFound env ap cmd hm]
      split <;> simp
    | some m =>
      rw [RunCommand_found env ap cmd m hm]
      by_cases hn : 0 < (if m.isVariadic then m.numIn - 1 else m.numIn)
      · rw [if_pos hn]; simp
      · rw [if_neg hn]; simp

/-- How `Run` ends, case by case. -/
theorem Run_eq (env : Env) (app : Option App) (defaultFile : List String) :
    Run env app defaultFile =
      match (env.Config app defaultFile).err with
      | some err =>
        ⟨[.config defaultFile], .ret (some (.wrapError ("error configuring app: " ++ err.Error) err))⟩
      | none =>
        match (env.Config app defaultFile).leftovers with
        | [] => ⟨[.config defaultFile, .gui (env.Config app defaultFile).app], .ret none⟩
        | cmd :: _ =>
          ⟨.config defaultFile :: (RunCommand env (env.Config app defaultFile).app cmd).trace,
            match (RunCommand env (env.Config app defaultFile).app cmd).outcome with
            | .ret none => .ret none
            | .ret (some e) =>
              .ret (some (.wrapError ("error running command " ++ env.fmtQ cmd ++ ": " ++ e.Error) e))
            | .exit c => .exit c
            | .panic p => .panic p⟩ := by
  rcases he : (env.Config app defaultFile).err with _ | err
  · rcases hl : (env.Config app defaultFile).leftovers with _ | ⟨cmd, rest⟩
    · simp [Run, Config, GUI, emit, bind, Exec.bind, pure, he, hl]
    · rcases ho : (RunCommand env (env.Config app defaultFile).app cmd).outcome with r | c | p
      · cases r <;> simp [Run, Config, bind, Exec.bind, pure, he, hl, ho]
      · simp [Run, Config, bind, Exec.bind, pure, he, hl, ho]
      · simp [Run, Config, bind, Exec.bind, pure, he, hl, ho]
  · simp [Run, Config, bind, Exec.bind, pure, he]

/-- A method without parameters can be called with no arguments. -/
theorem callable_of_numIn_zero (m : Method) (hargs : m.numIn = 0) :
    ¬ 0 < (if m.isVariadic then m.numIn - 1 else m.numIn) := by
  rw [hargs]; split <;> simp

/-- A method without parameters that returns one value of an interface type,
nil or an error, has that value returned by `RunCommand`. -/
theorem RunCommand_found_error (env : Env) (app : App) (cmd : String) (m : Method)
    (decl : GoType) (result : Iface)
    (hm : app.methods (env.ToCamel cmd ++ "Cmd") = some m)
    (hargs : m.numIn = 0)
    (hbody : m.body = .ret [.iface decl result])
    (htyped : ∀ E, result = some E → E.typ.implementsError = true) :
    RunCommand env (some app) cmd =
      ⟨[.methodByName (env.ToCamel cmd ++ "Cmd"), .call (env.ToCamel cmd ++ "Cmd")],
        .ret result⟩ := by
  rw [RunCommand_found env app cmd m hm, if_neg (callable_of_numIn_zero m hargs), hbody]
  cases result with
  | none => simp [Result.toValue, ReflectValue.Interface]
  | some E => simp [Result.toValue, ReflectValue.Interface, htyped E rfl]

/-- A method that can be called with no arguments (it has no parameter
besides a variadic one) and returns one value of an interface type, nil or an
error, has that value returned by `RunCommand`. -/
theorem RunCommand_found_error_callable (env : Env) (app : App) (cmd : String) (m : Method)
    (decl : GoType) (result : Iface)
    (hm : app.methods (env.ToCamel cmd ++ "Cmd") = some m)
    (hargs : (if m.isVariadic then m.numIn - 1 else m.numIn) = 0)
    (hbody : m.body = .ret [.iface decl result])
    (htyped : ∀ E, result = some E → E.typ.implementsError = true) :
    RunCommand env (some app) cmd =
      ⟨[.methodByName (env.ToCamel cmd ++ "Cmd"), .call (env.ToCamel cmd ++ "Cmd")],
        .ret result⟩ := by
  have hn : ¬ 0 < (if m.isVariadic then m.numIn - 1 else m.numIn) := by
    rw [hargs]; exact Nat.lt_irrefl 0
  rw [RunCommand_found env app cmd m hm, if_neg hn, hbody]
  cases result with
  | none => simp [Result.toValue, ReflectValue.Interface]
  | some E => simp [Result.toValue, ReflectValue.Interface, htyped E rfl]

/-! ## RunCommand: a command that follows the convention -/

/-- C1: when the app has a method named `CamelCase(x) + "Cmd"` that takes no
arguments and returns one value of type `error`, `RunCommand(app, x)` looks the
method up, invokes it exactly once, and returns exactly the value the method
returned: nil for nil, and the very same error value for a non-nil error,
neither wrapped nor re-formatted. -/
theorem runCommand_returns_command_result (env : Env) (app : App) (x : String)
    (m : Method) (result : Iface)
    (hm : app.methods (DerivedName env x) = some m)
    (hargs : m.numIn = 0)
    (hbody : m.body = .ret [.iface errorType result])
    (htyped : ∀ E, result = some E → E.typ.implementsError = true) :
    RunCommand env (some app) x =
      ⟨[.methodByName (DerivedName env x), .call (DerivedName env x)], .ret result⟩ := by
  exact RunCommand_found_error env app x m errorType result hm hargs hbody htyped

/-- C1, at the sample app: `sync` runs `SyncCmd`, which returns the error
`buildFailed`, and that same value comes back. -/
theorem runCommand_returns_command_result_witness :
    (sampleApp.methods (DerivedName sampleEnv "sync")
        = some ⟨0, false, .ret [.iface errorType (some buildFailed)]⟩
      ∧ (∀ E, some buildFailed = some E → E.typ.implementsError = true))
    ∧ RunCommand sampleEnv (some sampleApp) "sync" =
      ⟨[.methodByName "SyncCmd", .call "SyncCmd"], .ret (some buildFailed)⟩ :=
  ⟨⟨rfl, fun E h => by cases h; rfl⟩,
    runCommand_returns_command_result sampleEnv sampleApp "sync"
      ⟨0, false, .ret [.iface errorType (some buildFailed)]⟩ (some buildFailed)
      rfl rfl rfl (fun E h => by cases h; rfl)⟩

/-! ## RunCommand: an unknown command -/

/-- C2: for a token other than the literal `help` whose derived name resolves
to no method, `RunCommand` only performs the lookup (no method is invoked,
nothing is printed, the process does not exit) and returns the error built
from the format `command %q not found` applied to the token, so the message
carries the token as `%q` renders it. -/
theorem runCommand_unknown_command (env : Env) (app : App) (T : String)
    (hT : T ≠ "help")
    (hm : app.methods (DerivedName env T) = none) :
    RunCommand env (some app) T =
      ⟨[.methodByName (DerivedName env T)],
        .ret (some (errorsNew ("command " ++ env.fmtQ T ++ " not found")))⟩ := by
  unfold DerivedName at *
  rw [RunCommand_notFound env app T hm, if_neg hT]

/-- C2, at the token `Help`, whose derived name is `HelpCmd`, on an app
without commands. -/
theorem runCommand_unknown_command_witness :
    ("Help" ≠ "help" ∧ emptyApp.methods (DerivedName sampleEnv "Help") = none)
    ∧ RunCommand sampleEnv (some emptyApp) "Help" =
      ⟨[.methodByName "HelpCmd"], .ret (some (errorsNew "command \"Help\" not found"))⟩ :=
  ⟨⟨by decide, rfl⟩,
    runCommand_unknown_command sampleEnv emptyApp "Help" (by decide) rfl⟩

/-! ## RunCommand: the token help -/

/-- C4: when the app has no method named `HelpCmd`, `RunCommand(app, "help")`
prints `Usage(app)` and exits with code 0: no method is invoked and the run
ends in the exit, not in a returned error. -/
theorem runCommand_help_prints_usage (env : Env) (app : App)
    (hcamel : env.ToCamel "help" = "Help")
    (hm : app.methods "HelpCmd" = none) :
    RunCommand env (some app) "help" =
      ⟨[.methodByName "HelpCmd", .println (env.Usage (some app))], .exit 0⟩ := by
  have hname : env.ToCamel "help" ++ "Cmd" = "HelpCmd" := by rw [hcamel]; rfl
  rw [RunCommand_notFound env app "help" (by rw [hname]; exact hm), if_pos rfl, hname]

/-- C4, at an app without commands. -/
theorem runCommand_help_prints_usage_witness :
    (sampleEnv.ToCamel "help" = "Help" ∧ emptyApp.methods "HelpCmd" = none)
    ∧ RunCommand sampleEnv (some emptyApp) "help" =
      ⟨[.methodByName "HelpCmd", .println "usage: app <command>"], .exit 0⟩ :=
  ⟨⟨by decide, rfl⟩, runCommand_help_prints_usage sampleEnv emptyApp (by decide) rfl⟩

/-- C5, as the code has it: when the app has a method named `HelpCmd`,
`RunCommand(app, "help")` behaves exactly as for any other token with that
derived name (such tokens are never special-cased): the usage is not printed
and the run ends in an exit only if the method itself exits.  If the method
can be called with no arguments (it has no parameter besides a variadic one)
it is invoked, once, and when it returns one value of type `error` that value
is the result. -/
theorem runCommand_help_override (env : Env) (app : App) (m : Method)
    (hcamel : env.ToCamel "help" = "Help")
    (hm : app.methods "HelpCmd" = some m) :
    (∀ T, env.ToCamel T = "Help" →
        RunCommand env (some app) "help" = RunCommand env (some app) T)
    ∧ (∀ s, Event.println s ∉ (RunCommand env (some app) "help").trace)
    ∧ (∀ c, (RunCommand env (some app) "help").outcome = .exit c → m.body = .exit c)
    ∧ ((if m.isVariadic then m.numIn - 1 else m.numIn) = 0 →
        (RunCommand env (some app) "help").trace = [.methodByName "HelpCmd", .call "HelpCmd"])
    ∧ (∀ result, (if m.isVariadic then m.numIn - 1 else m.numIn) = 0 →
        m.body = .ret [.iface errorType result] →
        (∀ E, result = some E → E.typ.implementsError = true) →
        (RunCommand env (some app) "help").outcome = .ret result) := by
  have hname : env.ToCamel "help" ++ "Cmd" = "HelpCmd" := by rw [hcamel]; rfl
  have hm' : app.methods (env.ToCamel "help" ++ "Cmd") = some m := by rw [hname]; exact hm
  have hrun := RunCommand_found env app "help" m hm'
  rw [hname] at hrun
  refine ⟨?_, ?_, ?_, ?_, ?_⟩
  · intro T hT
    have hnameT : env.ToCamel T ++ "Cmd" = "HelpCmd" := by rw [hT]; rfl
    have hmT : app.methods (env.ToCamel T ++ "Cmd") = some m := by rw [hnameT]; exact hm
    rw [hrun, RunCommand_found env app T m hmT, hnameT]
  · intro s
    rw [hrun]
    by_cases hn : 0 < (if m.isVariadic then m.numIn - 1 else m.numIn)
    · rw [if_pos hn]; simp
    · rw [if_neg hn]; simp
  · intro c
    rw [hrun]
    by_cases hn : 0 < (if m.isVariadic then m.numIn - 1 else m.numIn)
    · rw [if_pos hn]; simp
    · rw [if_neg hn]
      rcases hb : m.body with rs | c' | p
      · rcases rs with _ | ⟨r, _ | ⟨r2, rs⟩⟩
        · simp
        · cases hi : (Result.toValue r).Interface with
          | none => simp [hi]
          | some v => by_cases hv : v.typ.implementsError = true <;> simp [hi, hv]
        · simp
      · simp
      · simp
  · intro hargs
    have hn : ¬ 0 < (if m.isVariadic then m.numIn - 1 else m.numIn) := by
      rw [hargs]; exact Nat.lt_irrefl 0
    rw [hrun, if_neg hn]
  · intro result hargs hbody htyped
    rw [RunCommand_found_error_callable env app "help" m errorType result hm' hargs hbody htyped]

/-- C5, at the sample app whose `HelpCmd` is variadic and returns nil: `help`
runs it like the token `Help` does, and the result is nil. -/
theorem runCommand_help_override_witness :
    (sampleEnv.ToCamel "help" = "Help"
      ∧ variadicHelpApp.methods "HelpCmd" = some ⟨1, true, .ret [.iface errorType none]⟩)
    ∧ RunCommand sampleEnv (some variadicHelpApp) "help"
        = RunCommand sampleEnv (some variadicHelpApp) "Help"
    ∧ (RunCommand sampleEnv (some variadicHelpApp) "help").trace
        = [.methodByName "HelpCmd", .call "HelpCmd"]
    ∧ (RunCommand sampleEnv (some variadicHelpApp) "help").outcome = .ret none :=
  ⟨⟨by decide, rfl⟩,
    (runCommand_help_override sampleEnv variadicHelpApp ⟨1, true, .ret [.iface errorType none]⟩
      (by decide) rfl).1 "Help" (by decide),
    (runCommand_help_override sampleEnv variadicHelpApp ⟨1, true, .ret [.iface errorType none]⟩
      (by decide) rfl).2.2.2.1 rfl,
    (runCommand_help_override sampleEnv variadicHelpApp ⟨1, true, .ret [.iface errorType none]⟩
      (by decide) rfl).2.2.2.2 none rfl rfl (fun E h => by cases h)⟩

/-- C5 fails as stated.  The app has a method named `HelpCmd`, declared as
`HelpCmd(n int) error`; `RunCommand(app, "help")` finds it, and the call with
no arguments panics inside reflection: the method is not invoked and no
result comes back. -/
theorem runCommand_help_override_counterexample :
    argHelpApp.methods "HelpCmd" = some ⟨1, false, .ret [.iface errorType none]⟩
    ∧ RunCommand sampleEnv (some argHelpApp) "help" =
        ⟨[.methodByName "HelpCmd"], .panic "reflect: Call with too few input arguments"⟩ :=
  ⟨rfl, rfl⟩

/-! ## RunCommand: a command of the wrong shape -/

/-- C6: when the derived name resolves to a method without parameters whose
invocation yields `n` values with `n ≠ 1`, `RunCommand` returns the programmer
error `expected 1 return value`, whose message carries the derived name (under
`%q`) and the count `n`, whatever the returned values are. -/
theorem runCommand_wrong_result_count (env : Env) (app : App) (T : String)
    (m : Method) (results : List Result)
    (hm : app.methods (DerivedName env T) = some m)
    (hargs : m.numIn = 0)
    (hbody : m.body = .ret results)
    (hcount : results.length ≠ 1) :
    RunCommand env (some app) T =
      ⟨[.methodByName (DerivedName env T), .call (DerivedName env T)],
        .ret (some (errorsNew ("programmer error: expected 1 return value (of type error) from "
          ++ env.fmtQ (DerivedName env T) ++ " but got " ++ Nat.repr results.length
          ++ " instead")))⟩ := by
  unfold DerivedName at *
  rw [RunCommand_found env app T m hm, if_neg (callable_of_numIn_zero m hargs), hbody]
  rcases results with _ | ⟨r, _ | ⟨r2, rs⟩⟩
  · rfl
  · exact absurd rfl hcount
  · rfl

/-- C6, at the sample app: `PairCmd` returns an `int` and a non-nil error. -/
theorem runCommand_wrong_result_count_witness :
    (sampleApp.methods (DerivedName sampleEnv "pair")
        = some ⟨0, false,
            .ret [.concrete (.plain ⟨"int", false⟩ "7"), .iface errorType (some buildFailed)]⟩
      ∧ [Result.concrete (.plain ⟨"int", false⟩ "7"),
          Result.iface errorType (some buildFailed)].length ≠ 1)
    ∧ RunCommand sampleEnv (some sampleApp) "pair" =
      ⟨[.methodByName "PairCmd", .call "PairCmd"],
        .ret (some (errorsNew
          "programmer error: expected 1 return value (of type error) from \"PairCmd\" but got 2 instead"))⟩ :=
  ⟨⟨rfl, by decide⟩,
    runCommand_wrong_result_count sampleEnv sampleApp "pair"
      ⟨0, false, .ret [.concrete (.plain ⟨"int", false⟩ "7"), .iface errorType (some buildFailed)]⟩
      [.concrete (.plain ⟨"int", false⟩ "7"), .iface errorType (some buildFailed)]
      rfl rfl rfl (by decide)⟩

/-- C7, as the code has it: when the derived name resolves to a method
without parameters that returns exactly one value, `RunCommand` looks at the
interface value `i` that reflection makes of it.  If `i` is not nil and its
dynamic type is not an error type, `RunCommand` returns the programmer error
`expected return value of type error`, whose message carries the derived name
(under `%q`), the value (under `%v`) and its dynamic type (under `%T`).  If
`i` is nil, `RunCommand` returns nil; `i` is nil exactly when the result is
declared with an interface type, whichever it is, and is the nil interface.
A result of a concrete declared type, the nil pointer included, never gives
nil. -/
theorem runCommand_single_result (env : Env) (app : App) (T : String)
    (m : Method) (r : Result)
    (hm : app.methods (DerivedName env T) = some m)
    (hargs : m.numIn = 0)
    (hbody : m.body = .ret [r]) :
    (∀ v, (Result.toValue r).Interface = some v → v.typ.implementsError = false →
      RunCommand env (some app) T =
        ⟨[.methodByName (DerivedName env T), .call (DerivedName env T)],
          .ret (some (errorsNew ("programmer error: expected return value of type error from "
            ++ env.fmtQ (DerivedName env T) ++ " but got value '" ++ v.fmtV ++ "' of type "
            ++ v.typ.name ++ " instead")))⟩)
    ∧ ((Result.toValue r).Interface = none →
      RunCommand env (some app) T =
        ⟨[.methodByName (DerivedName env T), .call (DerivedName env T)], .ret none⟩)
    ∧ (∀ decl, r = .iface decl none →
      RunCommand env (some app) T =
        ⟨[.methodByName (DerivedName env T), .call (DerivedName env T)], .ret none⟩)
    ∧ ((Result.toValue r).Interface = none ↔ ∃ decl, r = .iface decl none)
    ∧ (∀ v, r = .concrete v → (RunCommand env (some app) T).outcome ≠ .ret none) := by
  unfold DerivedName at *
  have hrun := RunCommand_found env app T m hm
  rw [if_neg (callable_of_numIn_zero m hargs), hbody] at hrun
  refine ⟨?_, ?_, ?_, ?_, ?_⟩
  · intro v hv herr
    rw [hrun]
    simp [hv, herr]
  · intro hnil
    rw [hrun]
    simp [hnil]
  · intro decl hr
    rw [hrun, hr]
    simp [Result.toValue, ReflectValue.Interface]
  · cases r with
    | iface decl content =>
      cases content with
      | none => simp [Result.toValue, ReflectValue.Interface]
      | some v => simp [Result.toValue, ReflectValue.Interface]
    | concrete v => simp [Result.toValue, ReflectValue.Interface]
  · intro v hr
    rw [hrun, hr]
    by_cases hv : v.typ.implementsError = true <;>
      simp [Result.toValue, ReflectValue.Interface, hv]

/-- C7, at the sample app: `CountCmd` returns the `int` 7, and `AnyCmd`,
declared to return `any`, returns nil. -/
theorem runCommand_single_result_witness :
    (sampleApp.methods (DerivedName sampleEnv "count")
        = some ⟨0, false, .ret [.concrete (.plain ⟨"int", false⟩ "7")]⟩
      ∧ sampleApp.methods (DerivedName sampleEnv "any")
        = some ⟨0, false, .ret [.iface anyType none]⟩)
    ∧ RunCommand sampleEnv (some sampleApp) "count" =
      ⟨[.methodByName "CountCmd", .call "CountCmd"],
        .ret (some (errorsNew
          "programmer error: expected return value of type error from \"CountCmd\" but got value '7' of type int instead"))⟩
    ∧ RunCommand sampleEnv (some sampleApp) "any" =
      ⟨[.methodByName "AnyCmd", .call "AnyCmd"], .ret none⟩ :=
  ⟨⟨rfl, rfl⟩,
    (runCommand_single_result sampleEnv sampleApp "count"
      ⟨0, false, .ret [.concrete (.plain ⟨"int", false⟩ "7")]⟩
      (.concrete (.plain ⟨"int", false⟩ "7")) rfl rfl rfl).1 (.plain ⟨"int", false⟩ "7") rfl rfl,
    (runCommand_single_result sampleEnv sampleApp "any"
      ⟨0, false, .ret [.iface anyType none]⟩
      (.iface anyType none) rfl rfl rfl).2.2.1 anyType rfl⟩

/-- C7 fails as stated.  `PtrCmd() *int` returns the nil pointer, a value
that is nil, and `RunCommand` returns a programmer error instead of nil;
`ErrPtrCmd() *MyErr` returns the nil pointer of a type that implements
`error`, and `RunCommand` returns it as a non-nil error. -/
theorem runCommand_single_result_counterexample :
    (pointerApp.methods (DerivedName sampleEnv "ptr")
        = some ⟨0, false, .ret [.concrete (.nilPointer ⟨"*int", false⟩ "<nil>")]⟩
      ∧ (Result.concrete (.nilPointer ⟨"*int", false⟩ "<nil>")).isNil = true
      ∧ RunCommand sampleEnv (some pointerApp) "ptr" =
          ⟨[.methodByName "PtrCmd", .call "PtrCmd"],
            .ret (some (errorsNew
              "programmer error: expected return value of type error from \"PtrCmd\" but got value '<nil>' of type *int instead"))⟩)
    ∧ (pointerApp.methods (DerivedName sampleEnv "err-ptr")
        = some ⟨0, false, .ret [.concrete (.nilPointer ⟨"*main.MyErr", true⟩ "<nil>")]⟩
      ∧ (Result.concrete (.nilPointer ⟨"*main.MyErr", true⟩ "<nil>")).isNil = true
      ∧ RunCommand sampleEnv (some pointerApp) "err-ptr" =
          ⟨[.methodByName "ErrPtrCmd", .call "ErrPtrCmd"],
            .ret (some (.nilPointer ⟨"*main.MyErr", true⟩ "<nil>"))⟩) :=
  ⟨⟨rfl, rfl, rfl⟩, rfl, rfl, rfl⟩

/-! ## The naming convention: word-boundary camel-casing -/

/-- Camel-casing splits at a separator: the part after it starts a new word. -/
theorem camelChars_append_sep (sep : Char) (hsep : sep = '-' ∨ sep = '_')
    (a b : List Char) (capNext : Bool) :
    camelChars capNext (a ++ sep :: b) = camelChars capNext a ++ camelChars true b := by
  induction a generalizing capNext with
  | nil => simp [camelChars, hsep]
  | cons c cs ih =>
    by_cases hc : c = '-' ∨ c = '_'
    · simp [camelChars, hc, ih]
    · simp [camelChars, hc, ih]

/-- Inside a word, camel-casing leaves the characters as they are. -/
theorem camelChars_word (w : List Char) (hw : ∀ d ∈ w, d ≠ '-' ∧ d ≠ '_') :
    camelChars false w = w := by
  induction w with
  | nil => rfl
  | cons c cs ih =>
    have hc : ¬ (c = '-' ∨ c = '_') := by
      have := hw c (List.mem_cons_self c cs)
      tauto
    have hcs : ∀ d ∈ cs, d ≠ '-' ∧ d ≠ '_' := fun d hd => hw d (List.mem_cons_of_mem c hd)
    simp [camelChars, hc, ih hcs]

/-- C3: the first thing every run of `RunCommand` on a token `T` does is one
method lookup, and the name looked up is `ToCamel(T) + "Cmd"`, the same for
every app.  With the word-boundary camel-casing of the spec for `ToCamel`,
that name is `CamelCase(T) + "Cmd"`: `build-now` gives `BuildNowCmd`,
`clear-cache` gives `ClearCacheCmd`, `sync` gives `SyncCmd`, `build` gives
`BuildCmd`; a `-` or `_` is dropped and starts a new word, and the first
letter of a word is upper-cased while the rest of it is kept. -/
theorem derived_name_is_camel_case_plus_Cmd :
    (∀ (env : Env) (app : App) (T : String), ∃ rest,
        (RunCommand env (some app) T).trace = .methodByName (DerivedName env T) :: rest
        ∧ ∀ n, Event.methodByName n ∉ rest)
    ∧ (∀ (fmtQ : String → String) (Usage : Option App → String)
        (Config : Option App → List String → ConfigResult) (T : String),
        DerivedName ⟨CamelCase, fmtQ, Usage, Config⟩ T = CamelCase T ++ "Cmd")
    ∧ (CamelCase "build-now" ++ "Cmd" = "BuildNowCmd"
        ∧ CamelCase "clear-cache" ++ "Cmd" = "ClearCacheCmd"
        ∧ CamelCase "sync" ++ "Cmd" = "SyncCmd"
        ∧ CamelCase "build" ++ "Cmd" = "BuildCmd")
    ∧ (∀ a b : String, CamelCase (a ++ "-" ++ b) = CamelCase a ++ CamelCase b)
    ∧ (∀ a b : String, CamelCase (a ++ "_" ++ b) = CamelCase a ++ CamelCase b)
    ∧ (∀ (c : Char) (w : List Char), c ≠ '-' → c ≠ '_' → (∀ d ∈ w, d ≠ '-' ∧ d ≠ '_') →
        CamelCase ⟨c :: w⟩ = ⟨c.toUpper :: w⟩) := by
  refine ⟨?_, ?_, ⟨by decide, by decide, by decide, by decide⟩, ?_, ?_, ?_⟩
  · intro env app T
    unfold DerivedName
    cases hm : app.methods (env.ToCamel T ++ "Cmd") with
    | none =>
      rw [RunCommand_notFound env app T hm]
      by_cases hT : T = "help"
      · rw [if_pos hT]; exact ⟨_, rfl, by simp⟩
      · rw [if_neg hT]; exact ⟨_, rfl, by simp⟩
    | some m =>
      rw [RunCommand_found env app T m hm]
      by_cases hn : 0 < (if m.isVariadic then m.numIn - 1 else m.numIn)
      · rw [if_pos hn]; exact ⟨_, rfl, by simp⟩
      · rw [if_neg hn]; exact ⟨_, rfl, by simp⟩
  · intro fmtQ Usage Config T
    rfl
  · intro a b
    apply String.ext
    simp [CamelCase, String.data_append, camelChars_append_sep '-' (Or.inl rfl)]
  · intro a b
    apply String.ext
    simp [CamelCase, String.data_append, camelChars_append_sep '_' (Or.inr rfl)]
  · intro c w hc1 hc2 hw
    simp [CamelCase, camelChars, hc1, hc2, camelChars_word w hw]

/-- C3, at the word `sync`: no separator in it, so only its first letter is
upper-cased, and `RunCommand` starts by looking up `SyncCmd`. -/
theorem derived_name_is_camel_case_plus_Cmd_witness :
    ('s' ≠ '-' ∧ 's' ≠ '_' ∧ ∀ d ∈ ['y', 'n', 'c'], d ≠ '-' ∧ d ≠ '_')
    ∧ CamelCase ⟨'s' :: ['y', 'n', 'c']⟩ = ⟨'s'.toUpper :: ['y', 'n', 'c']⟩
    ∧ ∃ rest, (RunCommand sampleEnv (some sampleApp) "sync").trace
        = .methodByName (DerivedName sampleEnv "sync") :: rest
      ∧ ∀ n, Event.methodByName n ∉ rest :=
  ⟨⟨by decide, by decide, by decide⟩,
    derived_name_is_camel_case_plus_Cmd.2.2.2.2.2 's' ['y', 'n', 'c']
      (by decide) (by decide) (by decide),
    derived_name_is_camel_case_plus_Cmd.1 sampleEnv sampleApp "sync"⟩


/-! ## Run -/

/-- C8: when `Config` succeeds and leaves no leftover argument, `Run` calls
`Config`, then the GUI entry point once, on the app, looks up and invokes no
command, and returns nil. -/
theorem run_without_leftovers_launches_gui (env : Env) (app : Option App)
    (defaultFile : List String)
    (herr : (env.Config app defaultFile).err = none)
    (hleft : (env.Config app defaultFile).leftovers = []) :
    Run env app defaultFile =
      ⟨[.config defaultFile, .gui (env.Config app defaultFile).app], .ret none⟩ := by
  rw [Run_eq, herr, hleft]

/-- C8, at the sample app with no argument left over. -/
theorem run_without_leftovers_launches_gui_witness :
    ((sampleEnv.Config (some sampleApp) []).err = none
      ∧ (sampleEnv.Config (some sampleApp) []).leftovers = [])
    ∧ Run sampleEnv (some sampleApp) [] = ⟨[.config [], .gui (some sampleApp)], .ret none⟩ :=
  ⟨⟨rfl, rfl⟩, run_without_leftovers_launches_gui sampleEnv (some sampleApp) [] rfl rfl⟩

/-- C9: `Run` hands every error on, with context.  If `Config` fails with `e`,
`Run` only calls `Config` and returns an error that wraps `e`, with message
`error configuring app: ` followed by the message of `e`.  If `Config`
succeeds with leftovers `cmd :: rest`, `Run` runs `RunCommand` once, on `cmd`
(the events after the configuration are those of that run, `rest` plays no
part, the GUI is not launched), and an error `e` returned by it comes back
wrapped, with message `error running command `, the token under `%q`, `: `
and the message of `e`.  Hence `Run` returns nil exactly when `Config`
succeeds and either nothing is left over or `RunCommand` on the first
leftover returns nil. -/
theorem run_propagates_errors (env : Env) (app : Option App) (defaultFile : List String) :
    (∀ e, (env.Config app defaultFile).err = some e →
      Run env app defaultFile =
        ⟨[.config defaultFile],
          .ret (some (.wrapError ("error configuring app: " ++ e.Error) e))⟩)
    ∧ (∀ cmd rest, (env.Config app defaultFile).err = none →
        (env.Config app defaultFile).leftovers = cmd :: rest →
        (Run env app defaultFile).trace =
          .config defaultFile :: (RunCommand env (env.Config app defaultFile).app cmd).trace
        ∧ (∀ a, Event.gui a ∉ (Run env app defaultFile).trace)
        ∧ (∀ e, (RunCommand env (env.Config app defaultFile).app cmd).outcome = .ret (some e) →
            (Run env app defaultFile).outcome =
              .ret (some (.wrapError
                ("error running command " ++ env.fmtQ cmd ++ ": " ++ e.Error) e)))
        ∧ ((RunCommand env (env.Config app defaultFile).app cmd).outcome = .ret none →
            (Run env app defaultFile).outcome = .ret none))
    ∧ ((Run env app defaultFile).outcome = .ret none ↔
        (env.Config app defaultFile).err = none
        ∧ ((env.Config app defaultFile).leftovers = []
          ∨ ∃ cmd rest, (env.Config app defaultFile).leftovers = cmd :: rest
            ∧ (RunCommand env (env.Config app defaultFile).app cmd).outcome = .ret none)) := by
  refine ⟨?_, ?_, ?_⟩
  · intro e he
    rw [Run_eq, he]
  · intro cmd rest herr hleft
    have hrun := Run_eq env app defaultFile
    rw [herr, hleft] at hrun
    refine ⟨by rw [hrun], ?_, ?_, ?_⟩
    · intro a
      rw [hrun]
      have := RunCommand_trace_no_gui env (env.Config app defaultFile).app cmd a
      simp [this]
    · intro e he
      rw [hrun]
      simp [he]
    · intro hnil
      rw [hrun]
      simp [hnil]
  · have hrun := Run_eq env app defaultFile
    rcases herr : (env.Config app defaultFile).err with _ | e
    · rcases hleft : (env.Config app defaultFile).leftovers with _ | ⟨cmd, rest⟩
      · rw [herr, hleft] at hrun
        rw [hrun]
        simp
      · rw [herr, hleft] at hrun
        rw [hrun]
        rcases ho : (RunCommand env (env.Config app defaultFile).app cmd).outcome with r | c | p
        · cases r <;> simp [ho]
        · simp [ho]
        · simp [ho]
    · rw [herr] at hrun
      rw [hrun]
      simp

/-- C9, at the sample app: a failing configuration, and the command `sync`
that fails, followed by a leftover that is ignored. -/
theorem run_propagates_errors_witness :
    ((failingEnv.Config (some sampleApp) ["app.toml"]).err = some (errorsNew "no such file")
      ∧ (sampleEnv.Config (some sampleApp) ["sync", "now"]).err = none
      ∧ (sampleEnv.Config (some sampleApp) ["sync", "now"]).leftovers = "sync" :: ["now"]
      ∧ (RunCommand sampleEnv (sampleEnv.Config (some sampleApp) ["sync", "now"]).app
          "sync").outcome = .ret (some buildFailed))
    ∧ Run failingEnv (some sampleApp) ["app.toml"] =
        ⟨[.config ["app.toml"]],
          .ret (some (.wrapError "error configuring app: no such file"
            (errorsNew "no such file")))⟩
    ∧ (Run sampleEnv (some sampleApp) ["sync", "now"]).outcome =
        .ret (some (.wrapError "error running command \"sync\": build failed" buildFailed)) :=
  ⟨⟨rfl, rfl, rfl, rfl⟩,
    (run_propagates_errors failingEnv (some sampleApp) ["app.toml"]).1
      (errorsNew "no such file") rfl,
    ((run_propagates_errors sampleEnv (some sampleApp) ["sync", "now"]).2.1
      "sync" ["now"] rfl rfl).2.2.1 buildFailed rfl⟩

/-! ## RunCommand: programmer errors -/

/-- The message of a programmer error differs from that of the not-found
error. -/
theorem programmer_error_ne_notFound (detail found : String) :
    errorsNew ("programmer error: " ++ detail) ≠ errorsNew ("command " ++ found) := by
  intro h
  have hs : ("programmer error: " ++ detail : String) = "command " ++ found := by
    simpa [errorsNew] using h
  have hd := congrArg String.data hs
  simp [String.data_append] at hd

/-- C10, as the code has it: when the derived name resolves to a method
without parameters that returns zero or several values, or exactly one value
that is not nil and whose dynamic type is not an error type, `RunCommand`
invokes it and returns normally with an error whose message starts with
`programmer error: `, which is not the not-found error of the token. -/
theorem runCommand_programmer_error (env : Env) (app : App) (T : String)
    (m : Method) (results : List Result)
    (hm : app.methods (DerivedName env T) = some m)
    (hargs : m.numIn = 0)
    (hbody : m.body = .ret results)
    (hshape : results.length ≠ 1
      ∨ ∃ r v, results = [r] ∧ (Result.toValue r).Interface = some v
          ∧ v.typ.implementsError = false) :
    ∃ detail,
      RunCommand env (some app) T =
        ⟨[.methodByName (DerivedName env T), .call (DerivedName env T)],
          .ret (some (errorsNew ("programmer error: " ++ detail)))⟩
      ∧ errorsNew ("programmer error: " ++ detail)
          ≠ errorsNew ("command " ++ env.fmtQ T ++ " not found") := by
  unfold DerivedName at *
  have hrun := RunCommand_found env app T m hm
  rw [if_neg (callable_of_numIn_zero m hargs), hbody] at hrun
  rcases hshape with hcount | ⟨r, v, hr, hv, herr⟩
  · refine ⟨"expected 1 return value (of type error) from "
      ++ env.fmtQ (env.ToCamel T ++ "Cmd") ++ " but got " ++ Nat.repr results.length
      ++ " instead", ?_, ?_⟩
    · rw [hrun]
      rcases results with _ | ⟨r, _ | ⟨r2, rs⟩⟩
      · simp [String.append_assoc]; rfl
      · exact absurd rfl hcount
      · simp [String.append_assoc]; rfl
    · rw [String.append_assoc]
      exact programmer_error_ne_notFound _ _
  · refine ⟨"expected return value of type error from "
      ++ env.fmtQ (env.ToCamel T ++ "Cmd") ++ " but got value '" ++ v.fmtV ++ "' of type "
      ++ v.typ.name ++ " instead", ?_, ?_⟩
    · rw [hrun, hr]
      simp [hv, herr, String.append_assoc]; rfl
    · rw [String.append_assoc]
      exact programmer_error_ne_notFound _ _

/-- C10, at the sample app: `CountCmd` returns the `int` 7. -/
theorem runCommand_programmer_error_witness :
    (sampleApp.methods (DerivedName sampleEnv "count")
        = some ⟨0, false, .ret [.concrete (.plain ⟨"int", false⟩ "7")]⟩
      ∧ ([Result.concrete (.plain ⟨"int", false⟩ "7")].length ≠ 1
        ∨ ∃ r v, [Result.concrete (.plain ⟨"int", false⟩ "7")] = [r]
            ∧ (Result.toValue r).Interface = some v ∧ v.typ.implementsError = false))
    ∧ ∃ detail,
      RunCommand sampleEnv (some sampleApp) "count" =
        ⟨[.methodByName (DerivedName sampleEnv "count"), .call (DerivedName sampleEnv "count")],
          .ret (some (errorsNew ("programmer error: " ++ detail)))⟩
      ∧ errorsNew ("programmer error: " ++ detail)
          ≠ errorsNew ("command " ++ sampleEnv.fmtQ "count" ++ " not found") :=
  ⟨⟨rfl, Or.inr ⟨_, _, rfl, rfl, rfl⟩⟩,
    runCommand_programmer_error sampleEnv sampleApp "count"
      ⟨0, false, .ret [.concrete (.plain ⟨"int", false⟩ "7")]⟩
      [.concrete (.plain ⟨"int", false⟩ "7")] rfl rfl rfl (Or.inr ⟨_, _, rfl, rfl, rfl⟩)⟩

/-- C10 fails as stated.  `AnyCmd` is declared to return `any`, which is not
an error type, and `RunCommand` reports success when it returns nil;
`ArgCmd` takes one argument, and `RunCommand` panics inside reflection
before the method is invoked. -/
theorem runCommand_programmer_error_counterexample :
    (sampleApp.methods (DerivedName sampleEnv "any")
        = some ⟨0, false, .ret [.iface anyType none]⟩
      ∧ (Result.iface anyType none).declType.implementsError = false
      ∧ RunCommand sampleEnv (some sampleApp) "any" =
          ⟨[.methodByName "AnyCmd", .call "AnyCmd"], .ret none⟩)
    ∧ (sampleApp.methods (DerivedName sampleEnv "arg")
        = some ⟨1, false, .ret [.iface errorType none]⟩
      ∧ RunCommand sampleEnv (some sampleApp) "arg" =
          ⟨[.methodByName "ArgCmd"], .panic "reflect: Call with too few input arguments"⟩) :=
  ⟨⟨rfl, rfl, rfl⟩, rfl, rfl⟩

end Gear
